import Mathlib

/-!
# Verification of the SO-101 smooth-motion layer (`src/arms/motion.py`)

Shallow embedding of the motion-planning module: joint tables, position
clamping, the three trajectory generators (linear, cubic, trapezoidal),
the streamed/native motion executors (as bus-write traces), the state
reader, connection logic and the profile dispatcher.

Python's IEEE-754 double arithmetic is modelled by exact rationals `ℚ`;
Python's `int(x)` conversion (truncation toward zero) is `pytrunc`.
Mutable servo state and bus I/O are modelled by explicit write/read
traces; read outcomes are an explicit parameter (`some v` = successful
read returning `v`, `none` = communication failure).
-/

namespace RenBody

/-- Python `int(x)` applied to a real value: truncation toward zero
(T-division of the numerator by the denominator). -/
def pytrunc (q : ℚ) : ℤ := q.num.tdiv q.den

theorem pytrunc_eq (q : ℚ) : pytrunc q = if 0 ≤ q then ⌊q⌋ else ⌈q⌉ := by
  rcases le_or_lt 0 q with h | h
  · rw [if_pos h, pytrunc, Int.tdiv_eq_ediv (Rat.num_nonneg.2 h) (Int.natCast_nonneg q.den),
      Rat.floor_def]
  · rw [if_neg (not_le.2 h), pytrunc]
    have h1 : q.num.tdiv q.den = -((-q).num.tdiv (-q).den) := by
      rw [Rat.neg_num, Rat.neg_den, Int.neg_tdiv, neg_neg]
    have h2 : (0 : ℚ) ≤ -q := by linarith
    rw [h1, Int.tdiv_eq_ediv (Rat.num_nonneg.2 h2) (Int.natCast_nonneg (-q).den),
      ← Rat.floor_def, Int.floor_neg, neg_neg]

theorem pytrunc_intCast (n : ℤ) : pytrunc (n : ℚ) = n := by
  rw [pytrunc_eq]
  rcases le_or_lt 0 ((n : ℚ)) with h | h
  · rw [if_pos h, Int.floor_intCast]
  · rw [if_neg (not_le.2 h), Int.ceil_intCast]

theorem pytrunc_mono {x y : ℚ} (h : x ≤ y) : pytrunc x ≤ pytrunc y := by
  rw [pytrunc_eq, pytrunc_eq]
  rcases le_or_lt 0 x with hx | hx <;> rcases le_or_lt 0 y with hy | hy
  · rw [if_pos hx, if_pos hy]; exact Int.floor_mono h
  · exact absurd (hx.trans h) (not_le.2 hy)
  · rw [if_neg (not_le.2 hx), if_pos hy]
    exact (Int.ceil_le.2 (by exact_mod_cast hx.le)).trans (Int.le_floor.2 (by exact_mod_cast hy))
  · rw [if_neg (not_le.2 hx), if_neg (not_le.2 hy)]; exact Int.ceil_mono h

theorem le_pytrunc {a : ℤ} {x : ℚ} (h : (a : ℚ) ≤ x) : a ≤ pytrunc x := by
  rw [pytrunc_eq]
  rcases le_or_lt 0 x with hx | hx
  · rw [if_pos hx]; exact Int.le_floor.2 h
  · rw [if_neg (not_le.2 hx)]
    have := Int.ceil_mono h
    rwa [Int.ceil_intCast] at this

theorem pytrunc_le {b : ℤ} {x : ℚ} (h : x ≤ (b : ℚ)) : pytrunc x ≤ b := by
  rw [pytrunc_eq]
  rcases le_or_lt 0 x with hx | hx
  · rw [if_pos hx]
    have := Int.floor_mono h
    rwa [Int.floor_intCast] at this
  · rw [if_neg (not_le.2 hx)]; exact Int.ceil_le.2 h

/-! ## Servo control table addresses (`motion.py` lines 15-20) -/

def ADDR_TORQUE_ENABLE : ℕ := 40
def ADDR_GOAL_POSITION : ℕ := 42
def ADDR_PRESENT_POSITION : ℕ := 56
def ADDR_MOVING_SPEED : ℕ := 46

/-! ## Joint configuration (`motion.py` lines 23-37) -/

def JOINTS : List String :=
  ["shoulder_pan", "shoulder_lift", "elbow_flex", "wrist_flex", "wrist_roll", "gripper"]

/-- `JOINT_IDS = {name: i+1 for i, name in enumerate(JOINTS)}` -/
def JOINT_IDS : List (String × ℕ) :=
  JOINTS.enum.map (fun p => (p.2, p.1 + 1))

def DEFAULT_LIMITS : List (String × (ℤ × ℤ)) :=
  [("shoulder_pan", (500, 3500)),
   ("shoulder_lift", (500, 3500)),
   ("elbow_flex", (500, 3500)),
   ("wrist_flex", (500, 3500)),
   ("wrist_roll", (500, 3500)),
   ("gripper", (1000, 3000))]

def DEFAULT_SPEED : ℤ := 250

/-- A Python `Dict[str, int]` of joint positions, as an association list
in insertion order. -/
abbrev Config := List (String × ℤ)

/-- `self.joint_limits.get(joint, (0, 4095))` with the default limits table. -/
def joint_limits_get (joint : String) : ℤ × ℤ :=
  (DEFAULT_LIMITS.lookup joint).getD (0, 4095)

/-- `SmoothMotion._clamp_position`: `max(min_pos, min(max_pos, position))`. -/
def clamp_position (joint : String) (position : ℤ) : ℤ :=
  max (joint_limits_get joint).1 (min (joint_limits_get joint).2 position)

/-! ## Trajectory generators (`motion.py` lines 168-245)

Each generator loops `for i in range(steps + 1)` and builds the waypoint
dict by `for joint in JOINTS: if joint in start and joint in end`. -/

/-- `SmoothMotion.linear_interpolate`:
`point[joint] = int(start[joint] + t * (end[joint] - start[joint]))`
with `t = i / steps`. -/
def linear_interpolate (start end_ : Config) (steps : ℕ) : List Config :=
  (List.range (steps + 1)).map (fun (i : ℕ) =>
    JOINTS.filterMap (fun joint =>
      match start.lookup joint, end_.lookup joint with
      | some s, some e =>
          some (joint, pytrunc ((s : ℚ) + ((i : ℚ) / (steps : ℚ)) * ((e : ℚ) - (s : ℚ))))
      | _, _ => none))

/-- `SmoothMotion.cubic_interpolate`: ease-in-out shaping
`t_smooth = 3*t*t - 2*t*t*t` applied to `t = i / steps`. -/
def cubic_interpolate (start end_ : Config) (steps : ℕ) : List Config :=
  (List.range (steps + 1)).map (fun (i : ℕ) =>
    let t : ℚ := (i : ℚ) / (steps : ℚ)
    let t_smooth : ℚ := 3 * t * t - 2 * t * t * t
    JOINTS.filterMap (fun joint =>
      match start.lookup joint, end_.lookup joint with
      | some s, some e =>
          some (joint, pytrunc ((s : ℚ) + t_smooth * ((e : ℚ) - (s : ℚ))))
      | _, _ => none))

/-- `SmoothMotion.trapezoidal_velocity`: `accel_steps = int(steps * accel_fraction)`;
quadratic ramp `t = 0.5 * (i / accel_steps) ** 2 * accel_fraction` while
`i < accel_steps`, mirrored deceleration while `i > steps - accel_steps`,
and the linear constant-velocity formula in between. -/
def trapezoidal_velocity (start end_ : Config) (steps : ℕ) (accel_fraction : ℚ) :
    List Config :=
  let accel_steps : ℤ := pytrunc ((steps : ℚ) * accel_fraction)
  (List.range (steps + 1)).map (fun (i : ℕ) =>
    let t : ℚ :=
      if (i : ℤ) < accel_steps then
        (1/2) * ((i : ℚ) / (accel_steps : ℚ)) ^ 2 * accel_fraction
      else if (i : ℤ) > (steps : ℤ) - accel_steps then
        let remaining : ℚ := ((steps : ℚ) - (i : ℚ)) / (accel_steps : ℚ)
        1 - (1/2) * remaining ^ 2 * accel_fraction
      else
        accel_fraction / 2 +
          ((i : ℚ) - (accel_steps : ℚ)) / ((steps : ℚ) - 2 * (accel_steps : ℚ)) *
            (1 - accel_fraction)
    JOINTS.filterMap (fun joint =>
      match start.lookup joint, end_.lookup joint with
      | some s, some e =>
          some (joint, pytrunc ((s : ℚ) + t * ((e : ℚ) - (s : ℚ))))
      | _, _ => none))

/-! ## Bus writes and the motion executors (`motion.py` lines 92-129, 247-306)

A `Write` records one register write on the bus, identified by joint name
(joint names map bijectively to servo ids via `JOINT_IDS`). Executions
that hit a Python `KeyError` (`JOINT_IDS[joint]` for an unknown joint)
return the writes transmitted before the raise together with `false`. -/

structure Write where
  joint : String
  register : ℕ
  value : ℤ
deriving DecidableEq, Repr

/-- `SmoothMotion.set_torque` with its default joint list:
one torque-enable write per joint. -/
def set_torque_writes (enable : Bool) (joints : List String) : List Write :=
  joints.map (fun name => ⟨name, ADDR_TORQUE_ENABLE, if enable then 1 else 0⟩)

/-- `SmoothMotion.set_speed`: one moving-speed write per joint. -/
def set_speed_writes (speed : ℤ) (joints : List String) : List Write :=
  joints.map (fun name => ⟨name, ADDR_MOVING_SPEED, speed⟩)

/-- `SmoothMotion.move_joint`: clamp, then write moving-speed and
goal-position for the one servo. `JOINT_IDS[joint]` raises `KeyError`
(before any write) when the joint is unknown. -/
def move_joint_writes (joint : String) (position : ℤ) (speed : ℤ) : List Write × Bool :=
  let position := clamp_position joint position
  match JOINT_IDS.lookup joint with
  | none => ([], false)
  | some _ =>
      ([⟨joint, ADDR_MOVING_SPEED, speed⟩, ⟨joint, ADDR_GOAL_POSITION, position⟩], true)

/-- `SmoothMotion.move_joints`: `move_joint` for each dict item in order;
a `KeyError` aborts the loop, keeping the writes already sent. -/
def move_joints_writes (speed : ℤ) : Config → List Write × Bool
  | [] => ([], true)
  | (joint, position) :: rest =>
      let r := move_joint_writes joint position speed
      if r.2 then
        let r2 := move_joints_writes speed rest
        (r.1 ++ r2.1, r2.2)
      else r

/-- Inner loop of `SmoothMotion.execute_trajectory` for one waypoint:
clamp and write the goal-position register for every joint in the
waypoint; `JOINT_IDS[joint]` raises before the write for unknown joints. -/
def waypoint_goal_writes : Config → List Write × Bool
  | [] => ([], true)
  | (joint, position) :: rest =>
      match JOINT_IDS.lookup joint with
      | none => ([], false)
      | some _ =>
          let r := waypoint_goal_writes rest
          (⟨joint, ADDR_GOAL_POSITION, clamp_position joint position⟩ :: r.1, r.2)

def trajectory_goal_writes : List Config → List Write × Bool
  | [] => ([], true)
  | wp :: rest =>
      let r := waypoint_goal_writes wp
      if r.2 then
        let r2 := trajectory_goal_writes rest
        (r.1 ++ r2.1, r2.2)
      else r

/-- `SmoothMotion.execute_trajectory`: torque on for all joints, speed for
all joints, then the per-waypoint goal writes (sleeping `dt` between
waypoints, which leaves no trace on the bus). -/
def execute_trajectory_writes (trajectory : List Config) (speed : ℤ) : List Write × Bool :=
  let r := trajectory_goal_writes trajectory
  (set_torque_writes true JOINTS ++ set_speed_writes speed JOINTS ++ r.1, r.2)

/-! ## Native mode: `SmoothMotion.move_to` (`motion.py` lines 133-159) -/

/-- The `max_dist` loop of `move_to`: maximum per-joint displacement
between the target and the joints present in the freshly read state. -/
def move_to_max_dist (positions current : Config) : ℤ :=
  positions.foldl
    (fun max_dist jp =>
      match current.lookup jp.1 with
      | some c => max max_dist |jp.2 - c|
      | none => max_dist) 0

/-- `estimated_time = (max_dist / 500) * (250 / max(speed, 1)) + 0.1`,
the "speed 250 moves ~500 units/sec" empirical estimate. -/
def move_to_estimated_time (positions current : Config) (speed : ℤ) : ℚ :=
  ((move_to_max_dist positions current : ℚ) / 500) * (250 / (max speed 1 : ℤ)) + 1/10

/-- Seconds actually slept by `move_to`: the explicit `wait` when given,
otherwise the estimate capped at 3.0 seconds. -/
def move_to_sleep_time (positions current : Config) (speed : ℤ) (wait : Option ℚ) : ℚ :=
  match wait with
  | some w => w
  | none => min (move_to_estimated_time positions current speed) 3

/-- Bus writes of `move_to`: `move_joints` at the (defaulted) speed. -/
def move_to_writes (positions : Config) (speedOpt : Option ℤ) : List Write × Bool :=
  move_joints_writes (speedOpt.getD DEFAULT_SPEED) positions

/-! ## State reader and connections (`motion.py` lines 61-90, 330-342) -/

/-- Snapshot returned by `read_state`. -/
structure ArmState where
  positions : Config
  timestamp : ℚ
deriving DecidableEq, Repr

/-- One present-position read request per joint, in `JOINT_IDS` order
(servo id, register). -/
def read_state_reads : List (ℕ × ℕ) :=
  JOINT_IDS.map (fun p => (p.2, ADDR_PRESENT_POSITION))

/-- `SmoothMotion.read_state`: `res name = some pos` models a read whose
`result == COMM_SUCCESS` returning `pos`; `none` models a failed read,
whose joint is skipped. -/
def read_state (res : String → Option ℤ) (now : ℚ) : ArmState :=
  ⟨JOINT_IDS.filterMap (fun p => (res p.1).map (fun pos => (p.1, pos))), now⟩

/-- `SmoothMotion.connect`, given whether `openPort()` succeeds: returns
`(result, connected)`. -/
def connect (openOk : Bool) : Bool × Bool :=
  if !openOk then (false, false) else (true, true)

/-- `DualArmController.connect`:
`self.leader.connect() and self.follower.connect()` (short-circuiting). -/
def dual_connect (leaderOk followerOk : Bool) : Bool :=
  if (connect leaderOk).1 then (connect followerOk).1 else false

/-! ## `SmoothMotion.smooth_move` (`motion.py` lines 275-306) -/

/-- `smooth_move` after the initial `read_state` (whose positions are the
`current` argument): computes `steps = max(int(duration * 50), 10)`,
dispatches on the profile string, and either streams the generated
trajectory (returning its bus writes) or raises
`ValueError(f"Unknown profile: {profile}")` before any write. -/
def smooth_move_result (current target : Config) (duration : ℚ) (profile : String) :
    List Write × Option String :=
  let steps : ℕ := (max (pytrunc (duration * 50)) 10).toNat
  if profile = "linear" then
    ((execute_trajectory_writes (linear_interpolate current target steps) 0).1, none)
  else if profile = "cubic" then
    ((execute_trajectory_writes (cubic_interpolate current target steps) 0).1, none)
  else if profile = "trapezoidal" then
    ((execute_trajectory_writes (trapezoidal_velocity current target steps (1/4)) 0).1, none)
  else
    ([], some ("Unknown profile: " ++ profile))

/-! ## Dictionary lemmas -/

theorem lookup_mem_values {α β : Type} [BEq α] :
    ∀ (l : List (α × β)) {a : α} {b : β}, l.lookup a = some b → b ∈ l.map Prod.snd := by
  intro l
  induction l with
  | nil => intro a b h; simp [List.lookup] at h
  | cons p rest ih =>
      intro a b h
      rw [List.lookup] at h
      by_cases hk : a == p.1
      · simp only [hk, if_pos] at h
        cases p
        simp_all [List.lookup]
      · simp only [List.lookup, hk] at h
        cases p
        simp only [List.map, List.mem_cons]
        right
        exact ih (by simpa [List.lookup] using h)

theorem joint_limits_get_fst_le_snd (j : String) :
    (joint_limits_get j).1 ≤ (joint_limits_get j).2 := by
  unfold joint_limits_get
  cases h : DEFAULT_LIMITS.lookup j with
  | none => simp
  | some r =>
      have hr := lookup_mem_values _ h
      simp only [Option.getD_some]
      fin_cases hr <;> norm_num

theorem clamp_position_mem (j : String) (p : ℤ) :
    (joint_limits_get j).1 ≤ clamp_position j p ∧
      clamp_position j p ≤ (joint_limits_get j).2 := by
  unfold clamp_position
  constructor
  · exact le_max_left _ _
  · exact max_le (joint_limits_get_fst_le_snd j) (min_le_left _ _)

theorem clamp_position_eq_self (j : String) (p : ℤ)
    (h1 : (joint_limits_get j).1 ≤ p) (h2 : p ≤ (joint_limits_get j).2) :
    clamp_position j p = p := by
  unfold clamp_position
  rw [min_eq_right h2, max_eq_right h1]

/-- Looking up `j` in a waypoint built over `ids` by the common
`if joint in start and joint in end` loop body. -/
theorem interp_lookup (start end_ : Config) (t : ℚ) {j : String} {s e : ℤ}
    (hs : start.lookup j = some s) (he : end_.lookup j = some e) :
    ∀ ids : List String, j ∈ ids →
      (ids.filterMap (fun joint =>
        match start.lookup joint, end_.lookup joint with
        | some s', some e' => some (joint, pytrunc ((s' : ℚ) + t * ((e' : ℚ) - (s' : ℚ))))
        | _, _ => none)).lookup j = some (pytrunc ((s : ℚ) + t * ((e : ℚ) - (s : ℚ)))) := by
  intro ids
  induction ids with
  | nil => intro h; simp at h
  | cons k ks ih =>
      intro hmem
      rw [List.filterMap_cons]
      by_cases hk : k = j
      · subst hk
        rw [hs, he]
        simp [List.lookup]
      · have hjks : j ∈ ks := by
          rcases List.mem_cons.1 hmem with h | h
          · exact absurd h.symm hk
          · exact h
        cases hks : start.lookup k with
        | none => simpa using ih hjks
        | some sk =>
            cases hke : end_.lookup k with
            | none => simpa using ih hjks
            | some ek =>
                simp only [List.lookup]
                have : (j == k) = false := by
                  simp [beq_eq_false_iff_ne]
                  exact fun hh => hk hh.symm
                rw [this]
                exact ih hjks

theorem getD_range_map {α : Type} (f : ℕ → α) (n i : ℕ) (h : i < n + 1) (d : α) :
    (((List.range (n + 1)).map f).getD i d) = f i := by
  rw [List.getD_eq_getElem?_getD, List.getElem?_map, List.getElem?_range h]
  rfl

theorem length_linear_interpolate (start end_ : Config) (steps : ℕ) :
    (linear_interpolate start end_ steps).length = steps + 1 := by
  simp [linear_interpolate]

theorem length_cubic_interpolate (start end_ : Config) (steps : ℕ) :
    (cubic_interpolate start end_ steps).length = steps + 1 := by
  simp [cubic_interpolate]

theorem length_trapezoidal_velocity (start end_ : Config) (steps : ℕ) (f : ℚ) :
    (trapezoidal_velocity start end_ steps f).length = steps + 1 := by
  simp [trapezoidal_velocity]

/-- Value of the linear waypoint at index `i` for a joint present in both
configurations. -/
theorem linear_interpolate_getD (start end_ : Config) (steps : ℕ) {i : ℕ} {j : String}
    {s e : ℤ} (hi : i < steps + 1) (hj : j ∈ JOINTS)
    (hs : start.lookup j = some s) (he : end_.lookup j = some e) :
    ((linear_interpolate start end_ steps).getD i []).lookup j =
      some (pytrunc ((s : ℚ) + ((i : ℚ) / (steps : ℚ)) * ((e : ℚ) - (s : ℚ)))) := by
  unfold linear_interpolate
  rw [getD_range_map _ _ _ hi]
  exact interp_lookup start end_ _ hs he JOINTS hj

/-- Value of the cubic (eased) waypoint at index `i`: the smoothstep
shaping `3t² − 2t³` of `t = i/steps`. -/
theorem cubic_interpolate_getD (start end_ : Config) (steps : ℕ) {i : ℕ} {j : String}
    {s e : ℤ} (hi : i < steps + 1) (hj : j ∈ JOINTS)
    (hs : start.lookup j = some s) (he : end_.lookup j = some e) :
    ((cubic_interpolate start end_ steps).getD i []).lookup j =
      some (pytrunc ((s : ℚ) +
        (3 * ((i : ℚ) / (steps : ℚ)) * ((i : ℚ) / (steps : ℚ)) -
          2 * ((i : ℚ) / (steps : ℚ)) * ((i : ℚ) / (steps : ℚ)) * ((i : ℚ) / (steps : ℚ))) *
        ((e : ℚ) - (s : ℚ)))) := by
  unfold cubic_interpolate
  rw [getD_range_map _ _ _ hi]
  exact interp_lookup start end_ _ hs he JOINTS hj

/-- The *t* parameter used by `trapezoidal_velocity` at step index `i`. -/
def trapezoidal_t (steps : ℕ) (accel_fraction : ℚ) (i : ℕ) : ℚ :=
  let accel_steps : ℤ := pytrunc ((steps : ℚ) * accel_fraction)
  if (i : ℤ) < accel_steps then
    (1/2) * ((i : ℚ) / (accel_steps : ℚ)) ^ 2 * accel_fraction
  else if (i : ℤ) > (steps : ℤ) - accel_steps then
    1 - (1/2) * (((steps : ℚ) - (i : ℚ)) / (accel_steps : ℚ)) ^ 2 * accel_fraction
  else
    accel_fraction / 2 +
      ((i : ℚ) - ((pytrunc ((steps : ℚ) * accel_fraction) : ℤ) : ℚ)) /
          ((steps : ℚ) - 2 * ((pytrunc ((steps : ℚ) * accel_fraction) : ℤ) : ℚ)) *
        (1 - accel_fraction)

theorem trapezoidal_velocity_getD (start end_ : Config) (steps : ℕ) (f : ℚ) {i : ℕ}
    {j : String} {s e : ℤ} (hi : i < steps + 1) (hj : j ∈ JOINTS)
    (hs : start.lookup j = some s) (he : end_.lookup j = some e) :
    ((trapezoidal_velocity start end_ steps f).getD i []).lookup j =
      some (pytrunc ((s : ℚ) + trapezoidal_t steps f i * ((e : ℚ) - (s : ℚ)))) := by
  unfold trapezoidal_velocity
  rw [getD_range_map _ _ _ hi]
  exact interp_lookup start end_ _ hs he JOINTS hj

theorem pytrunc_affine_zero (s e : ℤ) : pytrunc ((s : ℚ) + 0 * ((e : ℚ) - (s : ℚ))) = s := by
  rw [show (s : ℚ) + 0 * ((e : ℚ) - (s : ℚ)) = ((s : ℤ) : ℚ) by ring]
  exact pytrunc_intCast s

theorem pytrunc_affine_one (s e : ℤ) : pytrunc ((s : ℚ) + 1 * ((e : ℚ) - (s : ℚ))) = e := by
  rw [show (s : ℚ) + 1 * ((e : ℚ) - (s : ℚ)) = ((e : ℤ) : ℚ) by ring]
  exact pytrunc_intCast e

/-- `int(steps * 0.25)` is at least 1 once `steps ≥ 4`. -/
theorem accel_steps_pos {steps : ℕ} (h : 4 ≤ steps) :
    1 ≤ pytrunc ((steps : ℚ) * (1/4)) := by
  apply le_pytrunc
  have : (4 : ℚ) ≤ (steps : ℚ) := by exact_mod_cast h
  push_cast
  linarith

/-- `int(steps * 0.25)` stays strictly below `steps` for `steps ≥ 4`. -/
theorem accel_steps_lt {steps : ℕ} (h : 4 ≤ steps) :
    pytrunc ((steps : ℚ) * (1/4)) < (steps : ℤ) := by
  have hb : pytrunc ((steps : ℚ) * (1/4)) ≤ (steps : ℤ) - 1 := by
    apply pytrunc_le
    have : (4 : ℚ) ≤ (steps : ℚ) := by exact_mod_cast h
    push_cast
    linarith
  omega

theorem trapezoidal_t_zero {steps : ℕ} (h : 4 ≤ steps) :
    trapezoidal_t steps (1/4) 0 = 0 := by
  have ha := accel_steps_pos h
  unfold trapezoidal_t
  rw [if_pos (by exact_mod_cast lt_of_lt_of_le Int.zero_lt_one ha)]
  norm_num

theorem trapezoidal_t_last {steps : ℕ} (h : 4 ≤ steps) :
    trapezoidal_t steps (1/4) steps = 1 := by
  have ha := accel_steps_pos h
  have hlt := accel_steps_lt h
  unfold trapezoidal_t
  rw [if_neg (by omega), if_pos (by omega)]
  rw [sub_self, zero_div]
  norm_num

/-- C1 (amended): for `steps ≥ 1` all three generators return `steps + 1`
waypoints; the linear and cubic generators hit `start` at index 0 and
`end` at index `steps` exactly for every joint present in both
configurations; the trapezoidal generator does so as well provided
`steps ≥ 4` (so that `int(steps * 0.25) ≥ 1`; for `steps ≤ 3` the whole
trajectory lies in the constant-velocity branch and the endpoints are
can be missed; see the counterexample). -/
theorem C1_trajectory_endpoints (start end_ : Config) (steps : ℕ) (h1 : 1 ≤ steps)
    {j : String} {s e : ℤ} (hj : j ∈ JOINTS)
    (hs : start.lookup j = some s) (he : end_.lookup j = some e) :
    (linear_interpolate start end_ steps).length = steps + 1 ∧
    (cubic_interpolate start end_ steps).length = steps + 1 ∧
    (trapezoidal_velocity start end_ steps (1/4)).length = steps + 1 ∧
    ((linear_interpolate start end_ steps).getD 0 []).lookup j = some s ∧
    ((linear_interpolate start end_ steps).getD steps []).lookup j = some e ∧
    ((cubic_interpolate start end_ steps).getD 0 []).lookup j = some s ∧
    ((cubic_interpolate start end_ steps).getD steps []).lookup j = some e ∧
    (4 ≤ steps →
      ((trapezoidal_velocity start end_ steps (1/4)).getD 0 []).lookup j = some s ∧
      ((trapezoidal_velocity start end_ steps (1/4)).getD steps []).lookup j = some e) := by
  have hstep : ((steps : ℕ) : ℚ) ≠ 0 := Nat.cast_ne_zero.2 (by omega)
  refine ⟨length_linear_interpolate _ _ _, length_cubic_interpolate _ _ _,
    length_trapezoidal_velocity _ _ _ _, ?_, ?_, ?_, ?_, ?_⟩
  · rw [linear_interpolate_getD start end_ steps (by omega) hj hs he,
      show ((0 : ℕ) : ℚ) / (steps : ℚ) = 0 by simp, pytrunc_affine_zero]
  · rw [linear_interpolate_getD start end_ steps (by omega) hj hs he,
      show ((steps : ℕ) : ℚ) / (steps : ℚ) = 1 from div_self hstep, pytrunc_affine_one]
  · rw [cubic_interpolate_getD start end_ steps (by omega) hj hs he,
      show (3 * (((0 : ℕ) : ℚ) / (steps : ℚ)) * (((0 : ℕ) : ℚ) / (steps : ℚ)) -
        2 * (((0 : ℕ) : ℚ) / (steps : ℚ)) * (((0 : ℕ) : ℚ) / (steps : ℚ)) *
          (((0 : ℕ) : ℚ) / (steps : ℚ))) = 0 by norm_num, pytrunc_affine_zero]
  · rw [cubic_interpolate_getD start end_ steps (by omega) hj hs he,
      show (3 * (((steps : ℕ) : ℚ) / (steps : ℚ)) * (((steps : ℕ) : ℚ) / (steps : ℚ)) -
        2 * (((steps : ℕ) : ℚ) / (steps : ℚ)) * (((steps : ℕ) : ℚ) / (steps : ℚ)) *
          (((steps : ℕ) : ℚ) / (steps : ℚ))) = 1 by rw [div_self hstep]; norm_num,
      pytrunc_affine_one]
  · intro h4
    constructor
    · rw [trapezoidal_velocity_getD start end_ steps (1/4) (by omega) hj hs he,
        trapezoidal_t_zero h4, pytrunc_affine_zero]
    · rw [trapezoidal_velocity_getD start end_ steps (1/4) (by omega) hj hs he,
        trapezoidal_t_last h4, pytrunc_affine_one]

/-- C1 (counterexample): with `steps = 1` (so `accel_steps = 0`) the
trapezoidal generator's waypoint 0 is 2098, not the start position 2048,
for the move `shoulder_pan: 2048 → 2448`: every index falls into the
constant-velocity branch, whose `t` starts at `accel_fraction / 2`. -/
theorem C1_counterexample :
    ((trapezoidal_velocity [("shoulder_pan", 2048)] [("shoulder_pan", 2448)] 1 (1/4)).getD 0
        []).lookup "shoulder_pan" = some 2098 ∧ (2098 : ℤ) ≠ 2048 := by
  constructor
  · rw [trapezoidal_velocity_getD [("shoulder_pan", 2048)] [("shoulder_pan", 2448)] 1 (1/4)
      (by omega) (by decide)
      (show List.lookup "shoulder_pan" [("shoulder_pan", (2048 : ℤ))] = some 2048 by decide)
      (show List.lookup "shoulder_pan" [("shoulder_pan", (2448 : ℤ))] = some 2448 by decide)]
    rw [show trapezoidal_t 1 (1/4) 0 = 1/8 by
      unfold trapezoidal_t
      rw [show pytrunc ((1 : ℕ) * (1/4) : ℚ) = 0 by rw [pytrunc_eq]; norm_num]
      norm_num]
    congr 1
    rw [pytrunc_eq]
    push_cast
    norm_num
  · decide

/-- C1 (witness): the amended theorem evaluated at the gripper move
`1200 → 1400` with `steps = 4`. -/
theorem C1_witness :
    (linear_interpolate [("gripper", 1200)] [("gripper", 1400)] 4).length = 4 + 1 ∧
    (cubic_interpolate [("gripper", 1200)] [("gripper", 1400)] 4).length = 4 + 1 ∧
    (trapezoidal_velocity [("gripper", 1200)] [("gripper", 1400)] 4 (1/4)).length = 4 + 1 ∧
    ((linear_interpolate [("gripper", 1200)] [("gripper", 1400)] 4).getD 0 []).lookup
      "gripper" = some 1200 ∧
    ((linear_interpolate [("gripper", 1200)] [("gripper", 1400)] 4).getD 4 []).lookup
      "gripper" = some 1400 ∧
    ((cubic_interpolate [("gripper", 1200)] [("gripper", 1400)] 4).getD 0 []).lookup
      "gripper" = some 1200 ∧
    ((cubic_interpolate [("gripper", 1200)] [("gripper", 1400)] 4).getD 4 []).lookup
      "gripper" = some 1400 ∧
    (4 ≤ 4 →
      ((trapezoidal_velocity [("gripper", 1200)] [("gripper", 1400)] 4 (1/4)).getD 0
          []).lookup "gripper" = some 1200 ∧
      ((trapezoidal_velocity [("gripper", 1200)] [("gripper", 1400)] 4 (1/4)).getD 4
          []).lookup "gripper" = some 1400) :=
  C1_trajectory_endpoints [("gripper", 1200)] [("gripper", 1400)] 4 (by omega)
    (by decide) (by decide) (by decide)

/-- C4 (amended): the linear waypoint at index `i` is
`start + (i/steps)·(end − start)` truncated toward zero (Python `int()`),
not rounded to nearest; the documented scenario
`2048 → 2448, steps = 4 ↦ [2048, 2148, 2248, 2348, 2448]` is unaffected
because those values are exact. -/
theorem C4_linear_formula (start end_ : Config) (steps : ℕ) (h1 : 1 ≤ steps) {i : ℕ}
    (hi : i ≤ steps) {j : String} {s e : ℤ} (hj : j ∈ JOINTS)
    (hs : start.lookup j = some s) (he : end_.lookup j = some e) :
    ((linear_interpolate start end_ steps).getD i []).lookup j =
      some (pytrunc ((s : ℚ) + ((i : ℚ) / (steps : ℚ)) * ((e : ℚ) - (s : ℚ)))) ∧
    linear_interpolate [("shoulder_pan", 2048)] [("shoulder_pan", 2448)] 4 =
      [[("shoulder_pan", 2048)], [("shoulder_pan", 2148)], [("shoulder_pan", 2248)],
        [("shoulder_pan", 2348)], [("shoulder_pan", 2448)]] := by
  refine ⟨linear_interpolate_getD start end_ steps (by omega) hj hs he, ?_⟩
  simp [linear_interpolate, JOINTS, List.range_succ, List.lookup, pytrunc_eq]
  norm_num

/-- C4 (counterexample): for the move `shoulder_pan: 0 → 2` with
`steps = 3`, index 1, the source computes `int(2/3) = 0` while
round-to-nearest gives `round(2/3) = 1`. -/
theorem C4_counterexample :
    ((linear_interpolate [("shoulder_pan", 0)] [("shoulder_pan", 2)] 3).getD 1 []).lookup
        "shoulder_pan" = some 0 ∧
    round (((0 : ℤ) : ℚ) + (((1 : ℕ) : ℚ) / ((3 : ℕ) : ℚ)) * (((2 : ℤ) : ℚ) - ((0 : ℤ) : ℚ))) = 1 ∧
    (0 : ℤ) ≠ 1 := by
  refine ⟨?_, ?_, by decide⟩
  · rw [linear_interpolate_getD [("shoulder_pan", 0)] [("shoulder_pan", 2)] 3 (by omega)
      (by decide)
      (show List.lookup "shoulder_pan" [("shoulder_pan", (0 : ℤ))] = some 0 by decide)
      (show List.lookup "shoulder_pan" [("shoulder_pan", (2 : ℤ))] = some 2 by decide)]
    congr 1
    rw [pytrunc_eq]
    push_cast
    norm_num
  · rw [round_eq]
    push_cast
    norm_num

/-- C4 (witness): the amended formula applied to the move
`wrist_roll: 100 → 200`, `steps = 4`, index 2, reproducing the scenario. -/
theorem C4_witness :
    linear_interpolate [("shoulder_pan", 2048)] [("shoulder_pan", 2448)] 4 =
      [[("shoulder_pan", 2048)], [("shoulder_pan", 2148)], [("shoulder_pan", 2248)],
        [("shoulder_pan", 2348)], [("shoulder_pan", 2448)]] :=
  (C4_linear_formula [("wrist_roll", 100)] [("wrist_roll", 200)] 4 (by omega)
    (show (2 : ℕ) ≤ 4 by omega) (by decide)
    (show List.lookup "wrist_roll" [("wrist_roll", (100 : ℤ))] = some 100 by decide)
    (show List.lookup "wrist_roll" [("wrist_roll", (200 : ℤ))] = some 200 by decide)).2

/-- The smoothstep shaping `3t² − 2t³` is monotone on `[0, 1]`. -/
theorem smoothstep_mono {t u : ℚ} (h0 : 0 ≤ t) (htu : t ≤ u) (h1 : u ≤ 1) :
    3 * t * t - 2 * t * t * t ≤ 3 * u * u - 2 * u * u * u := by
  nlinarith [mul_nonneg (sub_nonneg.2 htu) (mul_nonneg h0 (sub_nonneg.2 ((htu.trans h1)))),
    mul_nonneg (sub_nonneg.2 htu) (mul_nonneg (h0.trans htu) (sub_nonneg.2 h1)),
    mul_nonneg (sub_nonneg.2 htu) (mul_nonneg h0 (sub_nonneg.2 h1)),
    sq_nonneg (u - t), mul_nonneg (sub_nonneg.2 htu) (sub_nonneg.2 htu)]

/-- The value written by `cubic_interpolate` at step `i` of `steps` for a
joint moving `s → e`. -/
def cubic_val (steps : ℕ) (s e : ℤ) (i : ℕ) : ℤ :=
  pytrunc ((s : ℚ) +
    (3 * ((i : ℚ) / (steps : ℚ)) * ((i : ℚ) / (steps : ℚ)) -
      2 * ((i : ℚ) / (steps : ℚ)) * ((i : ℚ) / (steps : ℚ)) * ((i : ℚ) / (steps : ℚ))) *
    ((e : ℚ) - (s : ℚ)))

theorem cubic_val_mono {steps i i' : ℕ} (h1 : 1 ≤ steps) (hii : i ≤ i') (hi' : i' ≤ steps)
    (s e : ℤ) :
    (s ≤ e → cubic_val steps s e i ≤ cubic_val steps s e i') ∧
    (e ≤ s → cubic_val steps s e i' ≤ cubic_val steps s e i) := by
  have hsp : (0 : ℚ) < (steps : ℚ) := by exact_mod_cast Nat.pos_of_ne_zero (by omega)
  have hii2 : ((i : ℕ) : ℚ) ≤ ((i' : ℕ) : ℚ) := by exact_mod_cast hii
  have h0t : (0 : ℚ) ≤ (i : ℚ) / (steps : ℚ) := by positivity
  have htu : (i : ℚ) / (steps : ℚ) ≤ (i' : ℚ) / (steps : ℚ) := by gcongr
  have hu1 : (i' : ℚ) / (steps : ℚ) ≤ 1 := by
    rw [div_le_one hsp]; exact_mod_cast hi'
  have hg := smoothstep_mono h0t htu hu1
  constructor
  · intro hse
    have hd : (0 : ℚ) ≤ (e : ℚ) - (s : ℚ) := by
      have : (s : ℚ) ≤ (e : ℚ) := by exact_mod_cast hse
      linarith
    exact pytrunc_mono (by nlinarith [mul_le_mul_of_nonneg_right hg hd])
  · intro hes
    have hd : (e : ℚ) - (s : ℚ) ≤ 0 := by
      have : (e : ℚ) ≤ (s : ℚ) := by exact_mod_cast hes
      linarith
    exact pytrunc_mono (by nlinarith [mul_le_mul_of_nonpos_right hg hd])

theorem pytrunc_half_between_pos {s e : ℤ} (h : 2 ≤ e - s) :
    s < pytrunc ((s : ℚ) + (1/2) * ((e : ℚ) - (s : ℚ))) ∧
      pytrunc ((s : ℚ) + (1/2) * ((e : ℚ) - (s : ℚ))) < e := by
  have hd : (2 : ℚ) ≤ (e : ℚ) - (s : ℚ) := by exact_mod_cast h
  have hlo := le_pytrunc
    (show ((s + 1 : ℤ) : ℚ) ≤ (s : ℚ) + (1/2) * ((e : ℚ) - (s : ℚ)) by push_cast; linarith)
  have hhi := pytrunc_le
    (show (s : ℚ) + (1/2) * ((e : ℚ) - (s : ℚ)) ≤ ((e - 1 : ℤ) : ℚ) by push_cast; linarith)
  omega

theorem pytrunc_half_between_neg {s e : ℤ} (h : e - s ≤ -2) :
    e < pytrunc ((s : ℚ) + (1/2) * ((e : ℚ) - (s : ℚ))) ∧
      pytrunc ((s : ℚ) + (1/2) * ((e : ℚ) - (s : ℚ))) < s := by
  have hd : (e : ℚ) - (s : ℚ) ≤ -2 := by exact_mod_cast h
  have hlo := le_pytrunc
    (show ((e + 1 : ℤ) : ℚ) ≤ (s : ℚ) + (1/2) * ((e : ℚ) - (s : ℚ)) by push_cast; linarith)
  have hhi := pytrunc_le
    (show (s : ℚ) + (1/2) * ((e : ℚ) - (s : ℚ)) ≤ ((s - 1 : ℤ) : ℚ) by push_cast; linarith)
  omega

theorem cubic_val_mid {m : ℕ} (hm : 1 ≤ m) (s e : ℤ) :
    cubic_val (2 * m) s e m = pytrunc ((s : ℚ) + (1/2) * ((e : ℚ) - (s : ℚ))) := by
  have hm0 : ((m : ℕ) : ℚ) ≠ 0 := Nat.cast_ne_zero.2 (by omega)
  have ht : ((m : ℕ) : ℚ) / (((2 * m : ℕ) : ℕ) : ℚ) = 1/2 := by
    push_cast
    field_simp
    ring
  unfold cubic_val
  rw [ht]
  norm_num

/-- C5 (amended): the eased generator applies the smoothstep shaping
`t' = 3t² − 2t³`; the waypoint at the midpoint of an even number of steps
is `int(start + ½·(end − start))`, which is *strictly* between start and
end whenever `|end − start| ≥ 2` (for `|end − start| = 1` truncation
returns one of the endpoints), and the waypoint values are monotone in
the step index. -/
theorem C5_cubic_midpoint_monotone (start end_ : Config) (steps m i i' : ℕ)
    (hm : 1 ≤ m) (h1 : 1 ≤ steps) (hii : i ≤ i') (hi' : i' ≤ steps)
    {j : String} {s e : ℤ} (hj : j ∈ JOINTS)
    (hs : start.lookup j = some s) (he : end_.lookup j = some e) :
    ((cubic_interpolate start end_ (2 * m)).getD m []).lookup j =
      some (cubic_val (2 * m) s e m) ∧
    (2 ≤ |e - s| →
      (s < e → s < cubic_val (2 * m) s e m ∧ cubic_val (2 * m) s e m < e) ∧
      (e < s → e < cubic_val (2 * m) s e m ∧ cubic_val (2 * m) s e m < s)) ∧
    ((cubic_interpolate start end_ steps).getD i []).lookup j =
      some (cubic_val steps s e i) ∧
    ((cubic_interpolate start end_ steps).getD i' []).lookup j =
      some (cubic_val steps s e i') ∧
    (s ≤ e → cubic_val steps s e i ≤ cubic_val steps s e i') ∧
    (e ≤ s → cubic_val steps s e i' ≤ cubic_val steps s e i) := by
  refine ⟨cubic_interpolate_getD start end_ (2 * m) (by omega) hj hs he, ?_,
    cubic_interpolate_getD start end_ steps (by omega) hj hs he,
    cubic_interpolate_getD start end_ steps (by omega) hj hs he,
    (cubic_val_mono h1 hii hi' s e).1, (cubic_val_mono h1 hii hi' s e).2⟩
  intro habs
  constructor
  · intro hlt
    have h2 : 2 ≤ e - s := by
      rcases abs_cases (e - s) with ⟨hh, _⟩ | ⟨hh, _⟩ <;> omega
    rw [cubic_val_mid hm]
    exact pytrunc_half_between_pos h2
  · intro hlt
    have h2 : e - s ≤ -2 := by
      rcases abs_cases (e - s) with ⟨hh, _⟩ | ⟨hh, _⟩ <;> omega
    rw [cubic_val_mid hm]
    exact pytrunc_half_between_neg h2

/-- C5 (counterexample): for the one-unit move
`shoulder_pan: 2048 → 2049` with `steps = 2`, the midpoint waypoint is
`int(2048.5) = 2048`, which equals the start and is not strictly between
start and end. -/
theorem C5_counterexample :
    ((cubic_interpolate [("shoulder_pan", 2048)] [("shoulder_pan", 2049)] 2).getD 1 []).lookup
        "shoulder_pan" = some 2048 ∧ ¬ ((2048 : ℤ) < 2048) := by
  refine ⟨?_, by decide⟩
  rw [cubic_interpolate_getD [("shoulder_pan", 2048)] [("shoulder_pan", 2049)] 2 (by omega)
    (by decide)
    (show List.lookup "shoulder_pan" [("shoulder_pan", (2048 : ℤ))] = some 2048 by decide)
    (show List.lookup "shoulder_pan" [("shoulder_pan", (2049 : ℤ))] = some 2049 by decide)]
  congr 1
  rw [pytrunc_eq]
  push_cast
  norm_num

/-- C5 (witness): the amended theorem at the move
`shoulder_lift: 1000 → 1004`, midpoint of `2·1` steps and indices
`0 ≤ 1` of a 2-step trajectory. -/
theorem C5_witness :
    ((cubic_interpolate [("shoulder_lift", 1000)] [("shoulder_lift", 1004)] (2 * 1)).getD 1
        []).lookup "shoulder_lift" = some (cubic_val (2 * 1) 1000 1004 1) ∧
    (2 ≤ |(1004 : ℤ) - 1000| →
      ((1000 : ℤ) < 1004 →
        1000 < cubic_val (2 * 1) 1000 1004 1 ∧ cubic_val (2 * 1) 1000 1004 1 < 1004) ∧
      ((1004 : ℤ) < 1000 →
        1004 < cubic_val (2 * 1) 1000 1004 1 ∧ cubic_val (2 * 1) 1000 1004 1 < 1000)) ∧
    ((cubic_interpolate [("shoulder_lift", 1000)] [("shoulder_lift", 1004)] 2).getD 0
        []).lookup "shoulder_lift" = some (cubic_val 2 1000 1004 0) ∧
    ((cubic_interpolate [("shoulder_lift", 1000)] [("shoulder_lift", 1004)] 2).getD 1
        []).lookup "shoulder_lift" = some (cubic_val 2 1000 1004 1) ∧
    ((1000 : ℤ) ≤ 1004 → cubic_val 2 1000 1004 0 ≤ cubic_val 2 1000 1004 1) ∧
    ((1004 : ℤ) ≤ 1000 → cubic_val 2 1000 1004 1 ≤ cubic_val 2 1000 1004 0) :=
  C5_cubic_midpoint_monotone [("shoulder_lift", 1000)] [("shoulder_lift", 1004)] 2 1 0 1
    (by omega) (by omega) (by omega) (by omega) (by decide)
    (show List.lookup "shoulder_lift" [("shoulder_lift", (1000 : ℤ))] = some 1000 by decide)
    (show List.lookup "shoulder_lift" [("shoulder_lift", (1004 : ℤ))] = some 1004 by decide)

/-- C3 (code bug, evaluation at the failing input): for
`steps = 20`, `accel_fraction = 0.25`, move `shoulder_pan: 0 → 4000`
(`accel_steps = 5`), the waypoints at indices 4, 5, 6 are 320, 500, 800.
The first difference crossing the acceleration/constant boundary is
`500 − 320 = 180`, while the constant-phase difference is
`800 − 500 = 300`: they differ by 120 units, not at most one rounding
unit. The acceleration ramp's terminal slope `f/accel_steps = 1/20` never
matches the constant-phase slope `(1−f)/(steps−2·accel_steps) = 3/40`. -/
theorem C3_trapezoidal_velocity_jump :
    ((trapezoidal_velocity [("shoulder_pan", 0)] [("shoulder_pan", 4000)] 20 (1/4)).getD 4
        []).lookup "shoulder_pan" = some 320 ∧
    ((trapezoidal_velocity [("shoulder_pan", 0)] [("shoulder_pan", 4000)] 20 (1/4)).getD 5
        []).lookup "shoulder_pan" = some 500 ∧
    ((trapezoidal_velocity [("shoulder_pan", 0)] [("shoulder_pan", 4000)] 20 (1/4)).getD 6
        []).lookup "shoulder_pan" = some 800 ∧
    ¬ (|((500 : ℤ) - 320) - ((800 : ℤ) - 500)| ≤ 1) := by
  refine ⟨?_, ?_, ?_, by decide⟩ <;>
    [rw [trapezoidal_velocity_getD [("shoulder_pan", 0)] [("shoulder_pan", 4000)] 20 (1/4)
        (by omega) (by decide)
        (show List.lookup "shoulder_pan" [("shoulder_pan", (0 : ℤ))] = some 0 by decide)
        (show List.lookup "shoulder_pan" [("shoulder_pan", (4000 : ℤ))] = some 4000 by decide),
      show trapezoidal_t 20 (1/4) 4 = 2/25 by
        simp only [trapezoidal_t]; norm_num [pytrunc_eq]];
     rw [trapezoidal_velocity_getD [("shoulder_pan", 0)] [("shoulder_pan", 4000)] 20 (1/4)
        (by omega) (by decide)
        (show List.lookup "shoulder_pan" [("shoulder_pan", (0 : ℤ))] = some 0 by decide)
        (show List.lookup "shoulder_pan" [("shoulder_pan", (4000 : ℤ))] = some 4000 by decide),
      show trapezoidal_t 20 (1/4) 5 = 1/8 by
        simp only [trapezoidal_t]; norm_num [pytrunc_eq]];
     rw [trapezoidal_velocity_getD [("shoulder_pan", 0)] [("shoulder_pan", 4000)] 20 (1/4)
        (by omega) (by decide)
        (show List.lookup "shoulder_pan" [("shoulder_pan", (0 : ℤ))] = some 0 by decide)
        (show List.lookup "shoulder_pan" [("shoulder_pan", (4000 : ℤ))] = some 4000 by decide),
      show trapezoidal_t 20 (1/4) 6 = 1/5 by
        simp only [trapezoidal_t]; norm_num [pytrunc_eq]]] <;>
  · congr 1
    rw [pytrunc_eq]
    push_cast
    norm_num

/-- C6: for every joint of the fixed six-joint set and every integer
position, `_clamp_position` lands inside the joint's safe range, and is
the identity on positions already inside the range. -/
theorem C6_clamp (j : String) (_hj : j ∈ JOINTS) (p : ℤ) :
    (joint_limits_get j).1 ≤ clamp_position j p ∧
    clamp_position j p ≤ (joint_limits_get j).2 ∧
    ((joint_limits_get j).1 ≤ p → p ≤ (joint_limits_get j).2 → clamp_position j p = p) :=
  ⟨(clamp_position_mem j p).1, (clamp_position_mem j p).2, clamp_position_eq_self j p⟩

/-- C6 (witness): the gripper's range `[1000, 3000]` at positions 500
(clamped) and 2000 (left unchanged). -/
theorem C6_witness :
    ((joint_limits_get "gripper").1 ≤ clamp_position "gripper" 500 ∧
      clamp_position "gripper" 500 ≤ (joint_limits_get "gripper").2) ∧
    clamp_position "gripper" 2000 = 2000 :=
  ⟨⟨(C6_clamp "gripper" (by decide) 500).1, (C6_clamp "gripper" (by decide) 500).2.1⟩,
    (C6_clamp "gripper" (by decide) 2000).2.2 (by decide) (by decide)⟩

/-! ## State-reader lemmas -/

theorem lookup_reads_none (res : String → Option ℤ) (j : String) (hres : res j = none) :
    ∀ ids : List (String × ℕ),
      (ids.filterMap (fun p => (res p.1).map (fun pos => (p.1, pos)))).lookup j = none := by
  intro ids
  induction ids with
  | nil => simp
  | cons p ps ih =>
      rw [List.filterMap_cons]
      cases hp : res p.1 with
      | none => simpa using ih
      | some v =>
          simp only [Option.map_some']
          simp only [List.lookup]
          have hne : (j == p.1) = false := by
            rw [beq_eq_false_iff_ne]
            intro hh
            rw [← hh, hres] at hp
            cases hp
          rw [hne]
          exact ih

theorem lookup_reads_some (res : String → Option ℤ) (j : String) {v : ℤ}
    (hres : res j = some v) :
    ∀ ids : List (String × ℕ), j ∈ ids.map Prod.fst →
      (ids.filterMap (fun p => (res p.1).map (fun pos => (p.1, pos)))).lookup j = some v := by
  intro ids
  induction ids with
  | nil => intro h; simp at h
  | cons p ps ih =>
      intro hmem
      rw [List.filterMap_cons]
      by_cases hp1 : p.1 = j
      · rw [hp1, hres]
        simp [List.lookup]
      · have hjps : j ∈ ps.map Prod.fst := by
          rw [List.map_cons] at hmem
          rcases List.mem_cons.1 hmem with h | h
          · exact absurd h.symm hp1
          · exact h
        cases hp : res p.1 with
        | none => simpa using ih hjps
        | some w =>
            simp only [Option.map_some']
            simp only [List.lookup]
            have hne : (j == p.1) = false := by
              rw [beq_eq_false_iff_ne]
              exact fun hh => hp1 hh.symm
            rw [hne]
            exact ih hjps

theorem lookup_reads_not_mem (res : String → Option ℤ) (j : String) :
    ∀ ids : List (String × ℕ), j ∉ ids.map Prod.fst →
      (ids.filterMap (fun p => (res p.1).map (fun pos => (p.1, pos)))).lookup j = none := by
  intro ids
  induction ids with
  | nil => intro _; simp
  | cons p ps ih =>
      intro hmem
      have hp1 : p.1 ≠ j := by
        intro hh
        exact hmem (by simp [hh])
      have hps : j ∉ ps.map Prod.fst := by
        intro hh
        exact hmem (by simp [hh])
      rw [List.filterMap_cons]
      cases hp : res p.1 with
      | none => simpa using ih hps
      | some w =>
          simp only [Option.map_some']
          simp only [List.lookup]
          have hne : (j == p.1) = false := by
            rw [beq_eq_false_iff_ne]
            exact fun hh => hp1 hh.symm
          rw [hne]
          exact ih hps

/-- C7: `read_state` issues one present-position read per joint and the
returned positions contain exactly the joints whose read succeeded: a
joint's lookup equals its read outcome, unknown names are absent, and in
the 2-of-6-failures scenario (wrist_flex and gripper silent) exactly the
four succeeding joints are returned, with no error. -/
theorem C7_read_state (res : String → Option ℤ) (now : ℚ) (j : String) :
    read_state_reads = [(1, ADDR_PRESENT_POSITION), (2, ADDR_PRESENT_POSITION),
      (3, ADDR_PRESENT_POSITION), (4, ADDR_PRESENT_POSITION), (5, ADDR_PRESENT_POSITION),
      (6, ADDR_PRESENT_POSITION)] ∧
    (j ∈ JOINTS → (read_state res now).positions.lookup j = res j) ∧
    (j ∉ JOINTS → (read_state res now).positions.lookup j = none) ∧
    (read_state
        (fun name => if name = "wrist_flex" ∨ name = "gripper" then none else some 2000)
        0).positions =
      [("shoulder_pan", 2000), ("shoulder_lift", 2000), ("elbow_flex", 2000),
        ("wrist_roll", 2000)] := by
  refine ⟨by decide, ?_, ?_, by decide⟩
  · intro hj
    have hj' : j ∈ JOINT_IDS.map Prod.fst := by
      rw [show JOINT_IDS.map Prod.fst = JOINTS by decide]
      exact hj
    cases hres : res j with
    | none => exact lookup_reads_none res j hres JOINT_IDS
    | some v => exact lookup_reads_some res j hres JOINT_IDS hj'
  · intro hj
    have hj' : j ∉ JOINT_IDS.map Prod.fst := by
      rw [show JOINT_IDS.map Prod.fst = JOINTS by decide]
      exact hj
    exact lookup_reads_not_mem res j JOINT_IDS hj'

/-- C7 (witness): an all-succeeding read outcome looked up at
`elbow_flex`. -/
theorem C7_witness :
    (read_state (fun _ => some 2222) 0).positions.lookup "elbow_flex" = some 2222 :=
  (C7_read_state (fun _ => some 2222) 0 "elbow_flex").2.1 (by decide)

/-! ## Executor write-trace lemmas -/

theorem waypoint_goal_writes_mem :
    ∀ (wp : Config) (w : Write), w ∈ (waypoint_goal_writes wp).1 →
      w.register = ADDR_GOAL_POSITION ∧
      (joint_limits_get w.joint).1 ≤ w.value ∧ w.value ≤ (joint_limits_get w.joint).2 := by
  intro wp
  induction wp with
  | nil => intro w h; simp [waypoint_goal_writes] at h
  | cons jp rest ih =>
      intro w hw
      obtain ⟨joint, position⟩ := jp
      cases hl : JOINT_IDS.lookup joint with
      | none => simp [waypoint_goal_writes, hl] at hw
      | some sid =>
          simp only [waypoint_goal_writes, hl] at hw
          rcases List.mem_cons.1 hw with h | h
          · subst h
            exact ⟨rfl, clamp_position_mem joint position⟩
          · exact ih w h

theorem trajectory_goal_writes_mem :
    ∀ (trajectory : List Config) (w : Write), w ∈ (trajectory_goal_writes trajectory).1 →
      w.register = ADDR_GOAL_POSITION ∧
      (joint_limits_get w.joint).1 ≤ w.value ∧ w.value ≤ (joint_limits_get w.joint).2 := by
  intro trajectory
  induction trajectory with
  | nil => intro w h; simp [trajectory_goal_writes] at h
  | cons wp rest ih =>
      intro w hw
      simp only [trajectory_goal_writes] at hw
      by_cases hok : (waypoint_goal_writes wp).2
      · rw [if_pos hok] at hw
        rcases List.mem_append.1 hw with h | h
        · exact waypoint_goal_writes_mem wp w h
        · exact ih w h
      · rw [if_neg hok] at hw
        exact waypoint_goal_writes_mem wp w hw

theorem move_joint_writes_mem :
    ∀ (joint : String) (position speed : ℤ) (w : Write),
      w ∈ (move_joint_writes joint position speed).1 →
      w.register = ADDR_GOAL_POSITION →
      (joint_limits_get w.joint).1 ≤ w.value ∧ w.value ≤ (joint_limits_get w.joint).2 := by
  intro joint position speed w hw hreg
  cases hl : JOINT_IDS.lookup joint with
  | none => simp [move_joint_writes, hl] at hw
  | some sid =>
      simp only [move_joint_writes, hl] at hw
      rcases List.mem_cons.1 hw with h | h
      · subst h
        simp [ADDR_MOVING_SPEED, ADDR_GOAL_POSITION] at hreg
      · rcases List.mem_cons.1 h with h2 | h2
        · subst h2
          exact clamp_position_mem joint position
        · simp at h2

theorem move_joints_writes_mem :
    ∀ (positions : Config) (speed : ℤ) (w : Write),
      w ∈ (move_joints_writes speed positions).1 →
      w.register = ADDR_GOAL_POSITION →
      (joint_limits_get w.joint).1 ≤ w.value ∧ w.value ≤ (joint_limits_get w.joint).2 := by
  intro positions
  induction positions with
  | nil => intro speed w h; simp [move_joints_writes] at h
  | cons jp rest ih =>
      intro speed w hw hreg
      obtain ⟨joint, position⟩ := jp
      simp only [move_joints_writes] at hw
      by_cases hok : (move_joint_writes joint position speed).2
      · rw [if_pos hok] at hw
        rcases List.mem_append.1 hw with h | h
        · exact move_joint_writes_mem joint position speed w h hreg
        · exact ih speed w h hreg
      · rw [if_neg hok] at hw
        exact move_joint_writes_mem joint position speed w hw hreg

/-- C2: every goal-position value transmitted by the streamed executor
(`execute_trajectory`) or the native movers (`move_joint`, `move_joints`,
`move_to`) lies inside the joint's safe range — out-of-range targets are
clamped before transmission. In the documented scenario a gripper target
of 500 is transmitted as 1000 (the safe minimum) and the raw value 500
never appears on the bus. -/
theorem C2_goal_writes_clamped :
    (∀ (trajectory : List Config) (speed : ℤ) (w : Write),
        w ∈ (execute_trajectory_writes trajectory speed).1 →
        w.register = ADDR_GOAL_POSITION →
        (joint_limits_get w.joint).1 ≤ w.value ∧ w.value ≤ (joint_limits_get w.joint).2) ∧
    (∀ (positions : Config) (speedOpt : Option ℤ) (w : Write),
        w ∈ (move_to_writes positions speedOpt).1 →
        w.register = ADDR_GOAL_POSITION →
        (joint_limits_get w.joint).1 ≤ w.value ∧ w.value ≤ (joint_limits_get w.joint).2) ∧
    (∀ (joint : String) (position speed : ℤ) (w : Write),
        w ∈ (move_joint_writes joint position speed).1 →
        w.register = ADDR_GOAL_POSITION →
        (joint_limits_get w.joint).1 ≤ w.value ∧ w.value ≤ (joint_limits_get w.joint).2) ∧
    (move_joint_writes "gripper" 500 300).1 =
      [⟨"gripper", ADDR_MOVING_SPEED, 300⟩, ⟨"gripper", ADDR_GOAL_POSITION, 1000⟩] ∧
    (∀ w ∈ (move_joint_writes "gripper" 500 300).1, w.value ≠ 500) := by
  refine ⟨?_, ?_, move_joint_writes_mem, by decide, by decide⟩
  · intro trajectory speed w hw hreg
    simp only [execute_trajectory_writes] at hw
    rcases List.mem_append.1 hw with h | h
    · rcases List.mem_append.1 h with h2 | h2
      · rcases List.mem_map.1 h2 with ⟨name, _, hww⟩
        rw [← hww] at hreg
        simp [set_torque_writes, ADDR_TORQUE_ENABLE, ADDR_GOAL_POSITION] at hreg
      · rcases List.mem_map.1 h2 with ⟨name, _, hww⟩
        rw [← hww] at hreg
        simp [set_speed_writes, ADDR_MOVING_SPEED, ADDR_GOAL_POSITION] at hreg
    · exact (trajectory_goal_writes_mem trajectory w h).2
  · intro positions speedOpt w hw hreg
    exact move_joints_writes_mem positions (speedOpt.getD DEFAULT_SPEED) w hw hreg

/-- C2 (witness): the clamped gripper write of the scenario, checked to
lie inside the gripper's safe range. -/
theorem C2_witness :
    (joint_limits_get "gripper").1 ≤ (1000 : ℤ) ∧
      (1000 : ℤ) ≤ (joint_limits_get "gripper").2 :=
  C2_goal_writes_clamped.2.2.1 "gripper" 500 300
    ⟨"gripper", ADDR_GOAL_POSITION, 1000⟩ (by decide) (by decide)

/-- C8: in native mode with `wait = None`, the time slept is
`min((max_dist/500)·(250/max(speed,1)) + 0.1, 3.0)`: it never exceeds the
3-second cap for any target, current state and speed, and at the default
speed 250 the estimate reduces to `max_dist / 500 + 0.1` — the empirical
≈500 position-units per second rate constant. -/
theorem C8_move_to_wait :
    (∀ (positions current : Config) (speed : ℤ),
        move_to_sleep_time positions current speed none ≤ 3) ∧
    (∀ positions current : Config,
        move_to_estimated_time positions current 250 =
          (move_to_max_dist positions current : ℚ) / 500 + 1/10) ∧
    (∀ (positions current : Config) (speed : ℤ),
        move_to_sleep_time positions current speed none =
          min (move_to_estimated_time positions current speed) 3) := by
  refine ⟨fun p c s => min_le_right _ _, fun p c => ?_, fun p c s => rfl⟩
  unfold move_to_estimated_time
  rw [show max (250 : ℤ) 1 = 250 by decide]
  push_cast
  ring

/-- C9: `DualArmController.connect` returns true exactly when both the
leader's and the follower's port opens succeed; equivalently it is the
(short-circuit) conjunction of the two individual results, so a single
failed port open yields false. -/
theorem C9_dual_connect (leaderOk followerOk : Bool) :
    (dual_connect leaderOk followerOk = true ↔ leaderOk = true ∧ followerOk = true) ∧
    dual_connect leaderOk followerOk = (leaderOk && followerOk) := by
  cases leaderOk <;> cases followerOk <;> simp [dual_connect, connect]

/-- C10: for any profile string other than "linear", "cubic" and
"trapezoidal", `smooth_move` raises
`ValueError(f"Unknown profile: {profile}")` after the initial state read
and before any waypoint execution: its bus-write trace is empty, so no
torque-enable, moving-speed or goal-position write occurs. -/
theorem C10_smooth_move_unknown_profile (current target : Config) (duration : ℚ)
    (profile : String) (h1 : profile ≠ "linear") (h2 : profile ≠ "cubic")
    (h3 : profile ≠ "trapezoidal") :
    smooth_move_result current target duration profile =
      ([], some ("Unknown profile: " ++ profile)) ∧
    ∀ w : Write, w ∉ (smooth_move_result current target duration profile).1 := by
  have hres : smooth_move_result current target duration profile =
      ([], some ("Unknown profile: " ++ profile)) := by
    simp only [smooth_move_result]
    rw [if_neg h1, if_neg h2, if_neg h3]
  refine ⟨hres, ?_⟩
  intro w hw
  rw [hres] at hw
  simp at hw

/-- C10 (witness): the unknown profile name "quadratic". -/
theorem C10_witness :
    smooth_move_result [] [] 1 "quadratic" =
      ([], some ("Unknown profile: " ++ "quadratic")) ∧
    ∀ w : Write, w ∉ (smooth_move_result [] [] 1 "quadratic").1 :=
  C10_smooth_move_unknown_profile [] [] 1 "quadratic" (by decide) (by decide) (by decide)

end RenBody
